import Mathlib

/-!
Verification of the credential-vault subsystem of `@ideadesignmedia/gmail-mcp`.

The subsystem under verification lives in `src/keystore.ts` (lock / unwrap /
rotate), `src/crypto.ts` (KDF and AEAD wrappers), `src/db.ts` (schema and the
transaction primitive) and the credential read path of `src/gmail.ts`
(`getGmailClient`).  SQLite rows are modelled as Lean structures, `Buffer`
values as lists of natural numbers (bytes), SQL `NULL` as `Option.none`, and a
thrown JS error as an `Except.error` with an explicit error kind.

The two primitives that the repository takes from Node's `crypto` module —
`scrypt` and AES-256-GCM — are not part of the repository.  They are modelled
from the spec (§4.1, §4.2): an ideal deterministic KDF that is injective in its
inputs, and an ideal AEAD whose authentication tag is a collision-free function
of (key, nonce, associated data, ciphertext) and whose ciphertext is the
plaintext masked by a keystream.  Randomness (`crypto.randomBytes` and the AEAD
module's internally generated nonces) is supplied explicitly through a `Rnd`
tape, mirroring the spec's statement that callers never supply nonces.
-/

deriving instance DecidableEq for Except

namespace GmailMcp

/-- A byte buffer (Node `Buffer`), modelled as a list of naturals. -/
abbrev Bytes := List Nat

/-- `KdfParams` from `src/crypto.ts`. -/
structure KdfParams where
  N : Nat
  r : Nat
  p : Nat
  dkLen : Nat
deriving DecidableEq, Repr

/-- `DEFAULT_KDF` from `src/keystore.ts`. -/
def DEFAULT_KDF : KdfParams := { N := 32768, r := 8, p := 1, dkLen := 32 }

/-- `Buffer.from(s, 'utf8')`: the byte encoding of a string.  Modelled as the
scalar values of the characters; like Node's UTF-8 encoding it is injective
with `decodeStr` as a left inverse. -/
def encodeStr (s : String) : Bytes := s.data.map Char.toNat

/-- `buf.toString('utf8')`: decoding of a byte buffer back to a string. -/
def decodeStr (b : Bytes) : String := ⟨b.map Char.ofNat⟩

/-- Length-prefixed encoding, used to build injective byte encodings. -/
def withLen (b : Bytes) : Bytes := b.length :: b

/-- Serialization of the KDF parameters into the KDF input. -/
def encodeKdf (q : KdfParams) : Bytes := [q.N, q.r, q.p, q.dkLen]

/-- Modelled from the spec: `deriveKek` in `src/crypto.ts` delegates to Node's
`crypto.scrypt`, which is not part of the repository.  Per §4.1 it is a
deterministic memory-hard KDF of (password, salt, params), and per §8
("wrong password never succeeds") distinct passwords must yield distinct KEKs,
so it is modelled as an ideal injective function of its three inputs. -/
def deriveKek (password : String) (salt : Bytes) (q : KdfParams) : Bytes :=
  withLen (encodeStr password) ++ (withLen salt ++ encodeKdf q)

/-- Encoding of the optional associated data into the tag input. -/
def encodeAad : Option Bytes → Bytes
  | none => [0]
  | some a => 1 :: withLen a

/-- Modelled from the spec: the ideal authentication tag of AES-256-GCM — a
collision-free function of key, nonce, associated data and ciphertext, per the
§4.2 contract that any mismatch in any of them is detected. -/
def macTag (key iv : Bytes) (aad : Option Bytes) (ct : Bytes) : Bytes :=
  withLen key ++ (withLen iv ++ (withLen (encodeAad aad) ++ withLen ct))

/-- Modelled from the spec: the keystream that AES-256-GCM in counter mode
xors with the plaintext; only its determinism in (key, nonce) and its length
matter for the verified properties. -/
def keystream (key iv : Bytes) (n : Nat) : Bytes :=
  (List.range n).map (fun i => (key.sum + iv.sum + i) % 256)

/-- Pointwise xor of two byte buffers, truncated to the shorter one. -/
def xorBytes (a b : Bytes) : Bytes := List.zipWith (fun x y => x ^^^ y) a b

/-- Result record of `encryptAesGcm` in `src/crypto.ts`: `{ ct, iv, tag }`. -/
structure AeadOut where
  ct : Bytes
  iv : Bytes
  tag : Bytes
deriving DecidableEq, Repr

/-- Modelled from the spec: `encryptAesGcm` in `src/crypto.ts` wraps Node's
AES-256-GCM, which is not part of the repository.  The fresh nonce that the
source draws internally with `randomBytes(12)` is passed explicitly as `iv`;
the ciphertext is the keystream-masked plaintext and the tag is the ideal MAC
over (key, nonce, associated data, ciphertext). -/
def encryptAesGcm (key iv plaintext : Bytes) (aad : Option Bytes) : AeadOut :=
  let ct := xorBytes plaintext (keystream key iv plaintext.length)
  { ct := ct, iv := iv, tag := macTag key iv aad ct }

/-- Modelled from the spec: `decryptAesGcm` in `src/crypto.ts` wraps Node's
AES-256-GCM decryption, which verifies the authentication tag before returning
plaintext; `none` is the thrown authentication error. -/
def decryptAesGcm (key iv tag ct : Bytes) (aad : Option Bytes) : Option Bytes :=
  if tag = macTag key iv aad ct then
    some (xorBytes ct (keystream key iv ct.length))
  else
    none

/-- Flip one bit: xor bit `b` of byte `i` of a buffer. -/
def flipBit (l : Bytes) (i b : Nat) : Bytes :=
  l.set i ((l.getD i 0) ^^^ (1 <<< b))

/-- The singleton `encryption_meta` row (`src/db.ts` `migrate`).  SQL `NULL`
columns are `Option.none`; `kdf_params_json` holds the `JSON.stringify`d
`KdfParams`, modelled through the (faithful) JSON round trip as the record
itself. -/
structure EncryptionMeta where
  is_locked : Bool
  version : Nat
  kdf : String
  kdf_salt : Option Bytes
  kdf_params_json : Option KdfParams
  dek_ct : Option Bytes
  dek_iv : Option Bytes
  dek_tag : Option Bytes
  password_hint : Option String
deriving DecidableEq, Repr

/-- One `credentials` row (`src/db.ts` `migrate`); `account_id` is the primary
key, so rows have pairwise distinct `account_id`s. -/
structure CredRow where
  account_id : String
  refresh_token : Option String
  refresh_token_ct : Option Bytes
  refresh_token_iv : Option Bytes
  refresh_token_tag : Option Bytes
  access_token : Option String
  access_expires_at : Option Nat
  token_version : Nat
deriving DecidableEq, Repr

/-- The persistent store: the singleton metadata row plus the credential
rows.  The `accounts` and `settings` tables play no role in the vault. -/
structure DBState where
  meta : EncryptionMeta
  creds : List CredRow
deriving DecidableEq, Repr

/-- JS truthiness of a string-or-null column: `null` and `''` are falsy. -/
def truthyS (o : Option String) : Bool :=
  match o with
  | none => false
  | some s => !(s == "")

/-- JS `a || b` on string-or-null values. -/
def jsOrStr (a b : Option String) : Option String :=
  if truthyS a then a else b

/-- The random tape consumed by one keystore operation: `randomBytes(16)` for
the salt, `randomBytes(32)` for the DEK, and the nonces drawn inside
`encryptAesGcm` — one for the DEK wrap and one per credential row (rows are
keyed by their primary-key `account_id`). -/
structure Rnd where
  salt : Bytes
  dek : Bytes
  dekIv : Bytes
  rowIv : String → Bytes

/-- Error kinds thrown by `src/keystore.ts`: a missing `encryption_meta` row,
the `'database is not locked'` precondition error, and the AEAD
authentication error propagated out of `decryptAesGcm`. -/
inductive KsError where
  | metaMissing
  | notLocked
  | authFailure
deriving DecidableEq, Repr

/-- `UnwrappedDek` from `src/keystore.ts`. -/
structure UnwrappedDek where
  dek : Bytes
  params : KdfParams
  salt : Bytes
deriving DecidableEq, Repr

/-- `isLocked` from `src/keystore.ts`. -/
def isLocked (s : DBState) : Bool := s.meta.is_locked

/-- `tryUnwrapDek` from `src/keystore.ts`: re-derive the KEK from the stored
salt and params and decrypt the wrapped DEK.  A `NULL` salt or ciphertext is
the `'database is not locked'` error; a failed tag check is the
authentication error. -/
def tryUnwrapDek (s : DBState) (password : String) : Except KsError UnwrappedDek :=
  match s.meta.kdf_salt, s.meta.dek_ct with
  | some salt, some ct =>
    let q := s.meta.kdf_params_json.getD DEFAULT_KDF
    let kek := deriveKek password salt q
    match decryptAesGcm kek (s.meta.dek_iv.getD []) (s.meta.dek_tag.getD []) ct none with
    | some dek => .ok { dek := dek, params := q, salt := salt }
    | none => .error .authFailure
  | _, _ => .error .notLocked

/-- The first transaction of `lockDatabase` (`src/keystore.ts` lines 26-35):
inside one `tx`, generate salt and DEK, wrap the DEK under the
password-derived KEK with no associated data, and update the metadata row with
`is_locked=1`.  Credential rows are untouched by this transaction.  Note the
source stores `hint || null`, so an empty-string hint is stored as `NULL`. -/
def lockTx1 (s : DBState) (r : Rnd) (password : String) (hint : Option String) : DBState :=
  let salt := r.salt
  let q := DEFAULT_KDF
  let kek := deriveKek password salt q
  let dek := r.dek
  let w := encryptAesGcm kek r.dekIv dek none
  { s with meta := { s.meta with
      is_locked := true
      kdf_salt := some salt
      kdf_params_json := some q
      dek_ct := some w.ct
      dek_iv := some w.iv
      dek_tag := some w.tag
      password_hint := jsOrStr hint none } }

/-- The owner-bound associated data string used at both encryption
(`lockDatabase`) and decryption (`getGmailClient`). -/
def aadFor (accountId : String) : Bytes :=
  encodeStr ("credentials.refresh_token:" ++ accountId ++ ":v1")

/-- The per-row update of `lockDatabase`'s second transaction: rows whose
`refresh_token` is truthy (the loop's `if (!r.refresh_token) continue` skips
`NULL` and `''`) are re-encrypted under the DEK with the owner-bound
associated data and their plaintext and access token cleared; all other rows
are left as they are. -/
def encryptRow (dek : Bytes) (r : Rnd) (c : CredRow) : CredRow :=
  if truthyS c.refresh_token then
    let t := c.refresh_token.getD ""
    let e := encryptAesGcm dek (r.rowIv c.account_id) (encodeStr t) (some (aadFor c.account_id))
    { c with
      refresh_token := none
      refresh_token_ct := some e.ct
      refresh_token_iv := some e.iv
      refresh_token_tag := some e.tag
      access_token := none
      access_expires_at := none }
  else c

/-- The second transaction of `lockDatabase` (`src/keystore.ts` lines 46-54):
one `UPDATE ... WHERE account_id=?` per plaintext row; since `account_id` is
the primary key this is the row-wise map `encryptRow`. -/
def lockTx2 (s : DBState) (dek : Bytes) (r : Rnd) : DBState :=
  { s with creds := s.creds.map (encryptRow dek r) }

/-- `lockDatabase` from `src/keystore.ts`.  It runs `lockTx1` as one committed
transaction, then — outside any transaction — re-reads the metadata it just
wrote, re-derives the KEK and unwraps the DEK, and finally runs `lockTx2` as a
second committed transaction.  The two `tx` blocks commit separately
(`src/db.ts` `tx` issues `BEGIN IMMEDIATE`/`COMMIT` per block), so the state
`lockTx1 s r password hint` is durable on its own. -/
def lockDatabase (s : DBState) (r : Rnd) (password : String) (hint : Option String) :
    Except KsError DBState :=
  let s1 := lockTx1 s r password hint
  match s1.meta.kdf_salt, s1.meta.dek_ct with
  | some salt, some ct =>
    let q := s1.meta.kdf_params_json.getD DEFAULT_KDF
    let kek := deriveKek password salt q
    match decryptAesGcm kek (s1.meta.dek_iv.getD []) (s1.meta.dek_tag.getD []) ct none with
    | some dek => .ok (lockTx2 s1 dek r)
    | none => .error .authFailure
  | _, _ => .error .metaMissing

/-- `rotatePassword` from `src/keystore.ts`: requires `is_locked`, unwraps the
DEK with the old password, re-wraps the same DEK under the new password's KEK
with a fresh salt, and updates only the metadata row.  The stored hint is the
source's `hint || row.password_hint || null`. -/
def rotatePassword (s : DBState) (r : Rnd) (oldPass newPass : String)
    (hint : Option String) : Except KsError DBState :=
  if s.meta.is_locked = false then .error .notLocked
  else
    let oldQ := s.meta.kdf_params_json.getD DEFAULT_KDF
    let oldSalt := s.meta.kdf_salt.getD []
    let oldKek := deriveKek oldPass oldSalt oldQ
    match decryptAesGcm oldKek (s.meta.dek_iv.getD []) (s.meta.dek_tag.getD [])
        (s.meta.dek_ct.getD []) none with
    | none => .error .authFailure
    | some dek =>
      let newSalt := r.salt
      let newQ := DEFAULT_KDF
      let newKek := deriveKek newPass newSalt newQ
      let w := encryptAesGcm newKek r.dekIv dek none
      .ok { s with meta := { s.meta with
        kdf_salt := some newSalt
        kdf_params_json := some newQ
        dek_ct := some w.ct
        dek_iv := some w.iv
        dek_tag := some w.tag
        password_hint := jsOrStr (jsOrStr hint s.meta.password_hint) none } }

/-- Error kinds of the credential read path of `getGmailClient`
(`src/gmail.ts` lines 30-41). -/
inductive GmailErr where
  | credsMissing
  | lockedNoDek
  | authFailure
deriving DecidableEq, Repr

/-- The per-secret read path of `getGmailClient` (`src/gmail.ts` lines 30-41):
look up the credential row, return a truthy plaintext token directly,
otherwise require the DEK and decrypt the stored ciphertext with the
owner-bound associated data. -/
def readRefreshToken (s : DBState) (dekOpt : Option Bytes) (accountId : String) :
    Except GmailErr String :=
  match s.creds.find? (fun c => c.account_id == accountId) with
  | none => .error .credsMissing
  | some cred =>
    if truthyS cred.refresh_token then .ok (cred.refresh_token.getD "")
    else
      match dekOpt with
      | none => .error .lockedNoDek
      | some dek =>
        match decryptAesGcm dek (cred.refresh_token_iv.getD [])
            (cred.refresh_token_tag.getD []) (cred.refresh_token_ct.getD [])
            (some (aadFor accountId)) with
        | some pt => .ok (decodeStr pt)
        | none => .error .authFailure

/-- The operation the CLI `passwd` command selects (`bin` entry,
lines 200-241). -/
inductive PasswdAction where
  | rotate
  | lock
deriving DecidableEq, Repr

/-- The dispatch of the CLI `passwd` command: if `--rotate` was passed or the
database is already locked, the command runs `rotatePassword`; only on an
unlocked database does it run `lockDatabase`. -/
def passwdDispatch (rotateFlag : Bool) (locked : Bool) : PasswdAction :=
  if rotateFlag || locked then .rotate else .lock

/-- Placing a stored ciphertext/nonce/tag triple into the credential row of
account `bId` (the cross-record substitution of §8). -/
def substTriple (s : DBState) (bId : String) (ct iv tag : Option Bytes) : DBState :=
  { s with creds := s.creds.map (fun c =>
      if c.account_id == bId then
        { c with refresh_token_ct := ct, refresh_token_iv := iv, refresh_token_tag := tag }
      else c) }

/-- A fresh, unlocked metadata row as inserted by `migrate`. -/
def m0 : EncryptionMeta :=
  { is_locked := false, version := 1, kdf := "scrypt", kdf_salt := none,
    kdf_params_json := none, dek_ct := none, dek_iv := none, dek_tag := none,
    password_hint := none }

/-- A sample plaintext credential row. -/
def row1 : CredRow :=
  { account_id := "acct1", refresh_token := some "tokA", refresh_token_ct := none,
    refresh_token_iv := none, refresh_token_tag := none, access_token := none,
    access_expires_at := none, token_version := 1 }

/-- A second sample plaintext credential row. -/
def row2 : CredRow :=
  { account_id := "acct2", refresh_token := some "tokB", refresh_token_ct := none,
    refresh_token_iv := none, refresh_token_tag := none, access_token := none,
    access_expires_at := none, token_version := 1 }

/-- A sample unlocked store with two plaintext secrets. -/
def s0 : DBState := { meta := m0, creds := [row1, row2] }

/-- A sample random tape. -/
def r0 : Rnd := { salt := [1], dek := [2], dekIv := [3], rowIv := fun _ => [4] }

/-- A second sample random tape (with a DEK of a different length, so the
re-wrapped ciphertext is guaranteed to differ from the one drawn from `r0`). -/
def r1 : Rnd := { salt := [5], dek := [6, 6], dekIv := [7], rowIv := fun _ => [8] }

/-- A sample locked store: the durable state after `lockDatabase`'s first
transaction with password `"p1"` and hint `"abc"`. -/
def sLocked : DBState := lockTx1 s0 r0 "p1" (some "abc")

/-- The sample store fully locked with password `"hunter2"`. -/
def sLw : DBState := lockTx2 (lockTx1 s0 r0 "hunter2" none) r0.dek r0

/-- The stored (encrypted) form of `row1` inside `sLw`. -/
def rAw : CredRow := encryptRow r0.dek r0 row1

/-- The result of unwrapping the DEK of `sLw` with its password. -/
def uLw : UnwrappedDek := { dek := r0.dek, params := DEFAULT_KDF, salt := r0.salt }

/-- `sLw` after rotating the password from `"hunter2"` to `"p2"`. -/
def sRot : DBState := (rotatePassword sLw r1 "hunter2" "p2" none).toOption.getD s0

/-- The result of unwrapping the DEK of `sRot` with the new password. -/
def uRot : UnwrappedDek := { dek := r0.dek, params := DEFAULT_KDF, salt := r1.salt }

theorem decodeStr_encodeStr (s : String) : decodeStr (encodeStr s) = s := by
  apply String.ext
  simp [decodeStr, encodeStr, List.map_map, Function.comp_def, Char.ofNat_toNat]

theorem encodeStr_injective : Function.Injective encodeStr := by
  intro a b h
  have := congrArg decodeStr h
  simpa [decodeStr_encodeStr] using this

theorem withLen_append_inj {a b r s : Bytes}
    (h : withLen a ++ r = withLen b ++ s) : a = b ∧ r = s := by
  simp only [withLen, List.cons_append, List.cons.injEq] at h
  exact List.append_inj h.2 h.1

theorem encodeKdf_inj {q q' : KdfParams} (h : encodeKdf q = encodeKdf q') : q = q' := by
  simp only [encodeKdf, List.cons.injEq, and_true] at h
  cases q; cases q'
  simp_all

theorem deriveKek_inj {p1 p2 : String} {s1 s2 : Bytes} {q1 q2 : KdfParams}
    (h : deriveKek p1 s1 q1 = deriveKek p2 s2 q2) : p1 = p2 ∧ s1 = s2 ∧ q1 = q2 := by
  unfold deriveKek at h
  obtain ⟨hp, h⟩ := withLen_append_inj h
  obtain ⟨hs, h⟩ := withLen_append_inj h
  exact ⟨encodeStr_injective hp, hs, encodeKdf_inj h⟩

theorem encodeAad_inj {a b : Option Bytes} (h : encodeAad a = encodeAad b) : a = b := by
  cases a <;> cases b <;> simp_all [encodeAad, withLen]

theorem macTag_inj {k1 k2 i1 i2 c1 c2 : Bytes} {a1 a2 : Option Bytes}
    (h : macTag k1 i1 a1 c1 = macTag k2 i2 a2 c2) :
    k1 = k2 ∧ i1 = i2 ∧ a1 = a2 ∧ c1 = c2 := by
  unfold macTag at h
  obtain ⟨hk, h⟩ := withLen_append_inj h
  obtain ⟨hi, h⟩ := withLen_append_inj h
  obtain ⟨ha, h⟩ := withLen_append_inj h
  refine ⟨hk, hi, encodeAad_inj ha, ?_⟩
  simp only [withLen, List.cons.injEq] at h
  exact h.2

theorem length_keystream (key iv : Bytes) (n : Nat) : (keystream key iv n).length = n := by
  simp [keystream]

theorem length_xorBytes (a b : Bytes) :
    (xorBytes a b).length = min a.length b.length := by
  simp [xorBytes]

theorem xorBytes_cancel : ∀ (m p : Bytes), m.length ≤ p.length →
    xorBytes (xorBytes m p) p = m
  | [], _, _ => rfl
  | _ :: _, [], h => by simp at h
  | x :: m, y :: p, h => by
    simp only [xorBytes, List.zipWith_cons_cons, List.cons.injEq]
    exact ⟨Nat.xor_cancel_right y x,
      xorBytes_cancel m p (by simpa using Nat.le_of_succ_le_succ h)⟩

theorem encrypt_iv (key iv m : Bytes) (aad : Option Bytes) :
    (encryptAesGcm key iv m aad).iv = iv := rfl

theorem encrypt_tag (key iv m : Bytes) (aad : Option Bytes) :
    (encryptAesGcm key iv m aad).tag = macTag key iv aad (encryptAesGcm key iv m aad).ct := rfl

theorem length_encrypt_ct (key iv m : Bytes) (aad : Option Bytes) :
    (encryptAesGcm key iv m aad).ct.length = m.length := by
  simp [encryptAesGcm, length_xorBytes, length_keystream]

/-- AEAD round trip at the level of the model primitives. -/
theorem decrypt_encrypt (key iv m : Bytes) (aad : Option Bytes) :
    decryptAesGcm key iv (encryptAesGcm key iv m aad).tag
      (encryptAesGcm key iv m aad).ct aad = some m := by
  unfold decryptAesGcm encryptAesGcm
  simp only [if_pos rfl, Option.some.injEq]
  rw [length_xorBytes, length_keystream, Nat.min_self]
  simp only [if_true, Option.some.injEq]
  exact xorBytes_cancel m (keystream key iv m.length)
    (le_of_eq (length_keystream key iv m.length).symm)

theorem decrypt_of_ne {key iv tag ct : Bytes} {aad : Option Bytes}
    (h : tag ≠ macTag key iv aad ct) :
    decryptAesGcm key iv tag ct aad = none := by
  unfold decryptAesGcm
  rw [if_neg h]

theorem xor_ne_zero_changes (a : Nat) {c : Nat} (hc : c ≠ 0) : a ^^^ c ≠ a := by
  intro h
  apply hc
  have := congrArg (fun x => a ^^^ x) h
  simpa [← Nat.xor_assoc] using this

theorem flipBit_ne (l : Bytes) {i : Nat} (b : Nat) (h : i < l.length) :
    flipBit l i b ≠ l := by
  intro he
  have h2 : i < (l.set i ((l.getD i 0) ^^^ (1 <<< b))).length := by simpa using h
  have hset : (flipBit l i b).getD i 0 = (l.getD i 0) ^^^ (1 <<< b) := by
    show (l.set i ((l.getD i 0) ^^^ (1 <<< b))).getD i 0 = _
    rw [List.getD_eq_getElem _ 0 h2]
    exact List.getElem_set_self _
  have hv : (flipBit l i b).getD i 0 = l.getD i 0 := by rw [he]
  rw [hset] at hv
  exact xor_ne_zero_changes (l.getD i 0) (by simp [Nat.shiftLeft_eq]) hv

theorem aadFor_inj {a b : String} (h : aadFor a = aadFor b) : a = b := by
  have hs := encodeStr_injective h
  have hd := congrArg String.data hs
  simp only [String.data_append] at hd
  have h1 := List.append_cancel_right hd
  have h2 := List.append_cancel_left h1
  exact String.ext h2

theorem encryptRow_account_id (dek : Bytes) (r : Rnd) (c : CredRow) :
    (encryptRow dek r c).account_id = c.account_id := by
  unfold encryptRow
  split <;> rfl

theorem readRefreshToken_congr {s s' : DBState} (h : s.creds = s'.creds)
    (dekOpt : Option Bytes) (accountId : String) :
    readRefreshToken s dekOpt accountId = readRefreshToken s' dekOpt accountId := by
  unfold readRefreshToken
  rw [h]

/-- `lockDatabase` always runs to completion: the metadata written by the
first transaction always unwraps under the same password, after which the
second transaction re-encrypts the rows. -/
theorem lockDatabase_eq (s : DBState) (r : Rnd) (password : String) (hint : Option String) :
    lockDatabase s r password hint = .ok (lockTx2 (lockTx1 s r password hint) r.dek r) := by
  unfold lockDatabase lockTx1
  simp [encrypt_iv, decrypt_encrypt]

theorem tryUnwrapDek_honest (s : DBState) (P : String) (salt iv0 dek : Bytes) (q : KdfParams)
    (hsalt : s.meta.kdf_salt = some salt)
    (hq : s.meta.kdf_params_json = some q)
    (hct : s.meta.dek_ct = some (encryptAesGcm (deriveKek P salt q) iv0 dek none).ct)
    (hiv : s.meta.dek_iv = some iv0)
    (htag : s.meta.dek_tag = some (encryptAesGcm (deriveKek P salt q) iv0 dek none).tag) :
    tryUnwrapDek s P = .ok { dek := dek, params := q, salt := salt } := by
  unfold tryUnwrapDek
  rw [hsalt, hq, hct, hiv, htag]
  simp [decrypt_encrypt]

theorem tryUnwrapDek_wrongPass (s : DBState) (P Pw : String) (salt iv0 dek : Bytes)
    (q : KdfParams)
    (hsalt : s.meta.kdf_salt = some salt)
    (hq : s.meta.kdf_params_json = some q)
    (hct : s.meta.dek_ct = some (encryptAesGcm (deriveKek P salt q) iv0 dek none).ct)
    (hiv : s.meta.dek_iv = some iv0)
    (htag : s.meta.dek_tag = some (encryptAesGcm (deriveKek P salt q) iv0 dek none).tag)
    (hne : Pw ≠ P) :
    tryUnwrapDek s Pw = .error .authFailure := by
  have hd : decryptAesGcm (deriveKek Pw salt q) iv0
      (encryptAesGcm (deriveKek P salt q) iv0 dek none).tag
      (encryptAesGcm (deriveKek P salt q) iv0 dek none).ct none = none := by
    apply decrypt_of_ne
    rw [encrypt_tag]
    intro heq
    obtain ⟨hk, -, -, -⟩ := macTag_inj heq
    exact hne (deriveKek_inj hk.symm).1
  unfold tryUnwrapDek
  rw [hsalt, hq, hct, hiv, htag]
  simp [hd]

theorem rotate_ok_inv {s : DBState} {r : Rnd} {oldPass newPass : String}
    {hint : Option String} {sR : DBState}
    (h : rotatePassword s r oldPass newPass hint = .ok sR) :
    s.meta.is_locked = true ∧
    ∃ dek0,
      decryptAesGcm
        (deriveKek oldPass (s.meta.kdf_salt.getD []) (s.meta.kdf_params_json.getD DEFAULT_KDF))
        (s.meta.dek_iv.getD []) (s.meta.dek_tag.getD []) (s.meta.dek_ct.getD []) none =
          some dek0 ∧
      sR = { s with meta := { s.meta with
        kdf_salt := some r.salt
        kdf_params_json := some DEFAULT_KDF
        dek_ct := some (encryptAesGcm (deriveKek newPass r.salt DEFAULT_KDF) r.dekIv dek0 none).ct
        dek_iv := some (encryptAesGcm (deriveKek newPass r.salt DEFAULT_KDF) r.dekIv dek0 none).iv
        dek_tag := some (encryptAesGcm (deriveKek newPass r.salt DEFAULT_KDF) r.dekIv dek0 none).tag
        password_hint := jsOrStr (jsOrStr hint s.meta.password_hint) none } } := by
  unfold rotatePassword at h
  split at h
  · exact absurd h (by simp)
  · next hLock =>
    refine ⟨by simpa using hLock, ?_⟩
    dsimp only at h
    split at h
    · exact absurd h (by simp)
    · next dek0 hdec =>
      refine ⟨dek0, hdec, ?_⟩
      have := Except.ok.inj h
      exact this.symm

theorem find?_map_encryptRow (l : List CredRow) (dek : Bytes) (r : Rnd) (aid : String) :
    (l.map (encryptRow dek r)).find? (fun c => c.account_id == aid) =
      (l.find? (fun c => c.account_id == aid)).map (encryptRow dek r) := by
  rw [List.find?_map]
  have hp : ((fun c : CredRow => c.account_id == aid) ∘ encryptRow dek r) =
      (fun c : CredRow => c.account_id == aid) := by
    funext c
    simp [Function.comp, encryptRow_account_id]
  rw [hp]

theorem substRow_account_id (bId : String) (ct iv tag : Option Bytes) (c : CredRow) :
    ((if c.account_id == bId then
        { c with refresh_token_ct := ct, refresh_token_iv := iv, refresh_token_tag := tag }
      else c) : CredRow).account_id = c.account_id := by
  split <;> rfl

theorem find?_map_subst (l : List CredRow) (bId : String) (ct iv tag : Option Bytes)
    (aid : String) :
    (l.map (fun c => if c.account_id == bId then
        { c with refresh_token_ct := ct, refresh_token_iv := iv, refresh_token_tag := tag }
      else c)).find? (fun c => c.account_id == aid) =
      (l.find? (fun c => c.account_id == aid)).map (fun c => if c.account_id == bId then
        { c with refresh_token_ct := ct, refresh_token_iv := iv, refresh_token_tag := tag }
      else c) := by
  rw [List.find?_map]
  have hp : ((fun c : CredRow => c.account_id == aid) ∘ (fun c : CredRow =>
      if c.account_id == bId then
        { c with refresh_token_ct := ct, refresh_token_iv := iv, refresh_token_tag := tag }
      else c)) = (fun c : CredRow => c.account_id == aid) := by
    funext c
    simp only [Function.comp]
    rw [substRow_account_id]
  rw [hp]

theorem tryUnwrapDek_lockOutput (s : DBState) (r : Rnd) (P : String) (hint : Option String)
    (d : Bytes) :
    tryUnwrapDek (lockTx2 (lockTx1 s r P hint) d r) P =
      .ok { dek := r.dek, params := DEFAULT_KDF, salt := r.salt } := by
  apply tryUnwrapDek_honest _ _ r.salt r.dekIv r.dek DEFAULT_KDF <;> rfl

/-- C7: AEAD round trip — for every key, plaintext and associated data,
decrypting the `{ct, nonce, tag}` produced by `encryptAesGcm` with the same
key and associated data returns exactly the plaintext. -/
theorem aead_round_trip (key iv m : Bytes) (aad : Option Bytes) :
    decryptAesGcm key iv (encryptAesGcm key iv m aad).tag
      (encryptAesGcm key iv m aad).ct aad = some m :=
  decrypt_encrypt key iv m aad

/-- C8: tamper detection — flipping any single bit of the stored ciphertext,
of the authentication tag, or of the associated data supplied at decryption
makes `decryptAesGcm` fail (return the authentication error) instead of
returning any plaintext. -/
theorem aead_tamper_detection (key iv m : Bytes) (aad : Option Bytes) (i b : Nat) :
    (i < (encryptAesGcm key iv m aad).ct.length →
      decryptAesGcm key iv (encryptAesGcm key iv m aad).tag
        (flipBit (encryptAesGcm key iv m aad).ct i b) aad = none) ∧
    (i < (encryptAesGcm key iv m aad).tag.length →
      decryptAesGcm key iv (flipBit (encryptAesGcm key iv m aad).tag i b)
        (encryptAesGcm key iv m aad).ct aad = none) ∧
    (∀ a, aad = some a → i < a.length →
      decryptAesGcm key iv (encryptAesGcm key iv m aad).tag
        (encryptAesGcm key iv m aad).ct (some (flipBit a i b)) = none) := by
  refine ⟨?_, ?_, ?_⟩
  · intro hi
    apply decrypt_of_ne
    rw [encrypt_tag]
    intro heq
    obtain ⟨-, -, -, hct⟩ := macTag_inj heq
    exact flipBit_ne _ b hi hct.symm
  · intro hi
    apply decrypt_of_ne
    intro heq
    rw [← encrypt_tag] at heq
    exact flipBit_ne _ b hi heq
  · intro a ha hi
    subst ha
    apply decrypt_of_ne
    rw [encrypt_tag]
    intro heq
    obtain ⟨-, -, haad, -⟩ := macTag_inj heq
    exact flipBit_ne _ b hi (Option.some.inj haad).symm

/-- Witness for C8 at a concrete key, plaintext, associated data and bit
position. -/
theorem aead_tamper_detection_witness :
    decryptAesGcm [1] [2] (encryptAesGcm [1] [2] [5, 6] (some [7])).tag
      (flipBit (encryptAesGcm [1] [2] [5, 6] (some [7])).ct 0 0) (some [7]) = none ∧
    decryptAesGcm [1] [2] (flipBit (encryptAesGcm [1] [2] [5, 6] (some [7])).tag 0 0)
      (encryptAesGcm [1] [2] [5, 6] (some [7])).ct (some [7]) = none ∧
    decryptAesGcm [1] [2] (encryptAesGcm [1] [2] [5, 6] (some [7])).tag
      (encryptAesGcm [1] [2] [5, 6] (some [7])).ct (some (flipBit [7] 0 0)) = none :=
  ⟨(aead_tamper_detection [1] [2] [5, 6] (some [7]) 0 0).1 (by decide),
   (aead_tamper_detection [1] [2] [5, 6] (some [7]) 0 0).2.1 (by decide),
   (aead_tamper_detection [1] [2] [5, 6] (some [7]) 0 0).2.2 [7] rfl (by decide)⟩

/-- C1 (counterexample): the state committed by `lockDatabase`'s first
transaction — durable, since `src/db.ts` `tx` commits it before the second
transaction begins — already has `is_locked = 1` while both credential rows
still store their plaintext refresh tokens.  An interruption between the two
commits therefore leaves exactly the state the claim rules out. -/
theorem lock_interruption_counterexample :
    (lockTx1 s0 r0 "pw" none).meta.is_locked = true ∧
    (lockTx1 s0 r0 "pw" none).creds.map (fun c => c.refresh_token) =
      [some "tokA", some "tokB"] :=
  ⟨rfl, rfl⟩

/-- C1 (amended): `lockDatabase` commits its metadata write and its bulk
re-encryption as two separate transactions, each individually atomic.  The
first commit sets `is_locked = 1` while leaving every credential row
untouched (so an interruption before the second commit leaves plaintext
secrets under `is_locked = 1`); only after the second commit does no
credential row retain a truthy plaintext refresh token. -/
theorem lock_two_transaction_structure (s : DBState) (r : Rnd) (password : String)
    (hint : Option String) (sEnd : DBState)
    (h : lockDatabase s r password hint = .ok sEnd) :
    (lockTx1 s r password hint).meta.is_locked = true ∧
    (lockTx1 s r password hint).creds = s.creds ∧
    ∀ c ∈ sEnd.creds, truthyS c.refresh_token = false := by
  refine ⟨rfl, rfl, ?_⟩
  rw [lockDatabase_eq] at h
  have hEnd := (Except.ok.inj h).symm
  subst hEnd
  intro c hc
  obtain ⟨c0, hc0, rfl⟩ := List.mem_map.1 hc
  unfold encryptRow
  split
  · rfl
  · next hfalse => simpa using hfalse

/-- Witness for C1's amended theorem on the sample store. -/
theorem lock_two_transaction_structure_witness :
    ∃ sEnd, lockDatabase s0 r0 "pw" none = .ok sEnd ∧
      ((lockTx1 s0 r0 "pw" none).meta.is_locked = true ∧
       (lockTx1 s0 r0 "pw" none).creds = s0.creds ∧
       ∀ c ∈ sEnd.creds, truthyS c.refresh_token = false) :=
  ⟨lockTx2 (lockTx1 s0 r0 "pw" none) r0.dek r0, lockDatabase_eq s0 r0 "pw" none,
    lock_two_transaction_structure s0 r0 "pw" none _ (lockDatabase_eq s0 r0 "pw" none)⟩

/-- C2 (counterexample): calling `lockDatabase` on a store whose metadata
already has `is_locked = 1` does not fail — it succeeds and overwrites the
wrapped DEK with a freshly generated one. -/
theorem lock_while_locked_counterexample :
    sLocked.meta.is_locked = true ∧
    (lockDatabase sLocked r1 "p2" none).toOption.isSome = true ∧
    (lockDatabase sLocked r1 "p2" none).toOption.map (fun s => s.meta.dek_ct) ≠
      some sLocked.meta.dek_ct := by
  refine ⟨rfl, ?_, ?_⟩
  · rw [lockDatabase_eq]
    rfl
  · rw [lockDatabase_eq]
    decide

/-- C2 (amended): `lockDatabase` itself performs no `is_locked` precondition
check — it runs to completion on every store, locked or not, regenerating and
overwriting the vault metadata.  The `Unlocked` precondition is enforced only
by the CLI `passwd` command, whose dispatch runs `rotatePassword` instead of
`lockDatabase` whenever the store is already locked. -/
theorem lock_no_precondition_check :
    (∀ (s : DBState) (r : Rnd) (password : String) (hint : Option String),
       (lockDatabase s r password hint).toOption.isSome = true) ∧
    (∀ rotateFlag : Bool, passwdDispatch rotateFlag true = .rotate) := by
  constructor
  · intro s r password hint
    rw [lockDatabase_eq]
    rfl
  · intro f
    unfold passwdDispatch
    simp

/-- C3: lock/unlock fidelity — locking a store with password `P`, then
unwrapping the DEK with `P` and reading a credential record through the
per-secret accessor, returns exactly the plaintext secret that was stored
before the lock.  (Secrets written by the repository are nonempty, since both
OAuth flows reject a missing/empty `refresh_token`; the `t ≠ ""` hypothesis
mirrors that invariant, which the JS truthiness checks rely on.) -/
theorem lock_unlock_fidelity (s : DBState) (r : Rnd) (P : String) (hint : Option String)
    (sL : DBState) (u : UnwrappedDek) (aid t : String) (c : CredRow)
    (hlock : lockDatabase s r P hint = .ok sL)
    (hunw : tryUnwrapDek sL P = .ok u)
    (hfind : s.creds.find? (fun c => c.account_id == aid) = some c)
    (ht : c.refresh_token = some t) (hne : t ≠ "") :
    readRefreshToken sL (some u.dek) aid = .ok t := by
  rw [lockDatabase_eq] at hlock
  have hL := (Except.ok.inj hlock).symm
  subst hL
  rw [tryUnwrapDek_lockOutput] at hunw
  have hud : u.dek = r.dek := by rw [← Except.ok.inj hunw]
  have haid : c.account_id = aid := by
    have hb := List.find?_some hfind
    simp only at hb
    exact eq_of_beq hb
  have htr : truthyS c.refresh_token = true := by
    rw [ht]
    simp [truthyS, hne]
  have hfound : (lockTx2 (lockTx1 s r P hint) r.dek r).creds.find?
      (fun c => c.account_id == aid) = some (encryptRow r.dek r c) := by
    show (s.creds.map (encryptRow r.dek r)).find? (fun c => c.account_id == aid) = _
    rw [find?_map_encryptRow, hfind]
    rfl
  have hrow : encryptRow r.dek r c =
      { c with
        refresh_token := none
        refresh_token_ct := some (encryptAesGcm r.dek (r.rowIv aid) (encodeStr t)
          (some (aadFor aid))).ct
        refresh_token_iv := some (encryptAesGcm r.dek (r.rowIv aid) (encodeStr t)
          (some (aadFor aid))).iv
        refresh_token_tag := some (encryptAesGcm r.dek (r.rowIv aid) (encodeStr t)
          (some (aadFor aid))).tag
        access_token := none
        access_expires_at := none } := by
    unfold encryptRow
    rw [if_pos htr, haid, ht]
    simp
  unfold readRefreshToken
  rw [hfound, hrow, hud]
  simp [truthyS, encrypt_iv, decrypt_encrypt, decodeStr_encodeStr]

/-- Witness for C3 on the sample store. -/
theorem lock_unlock_fidelity_witness :
    readRefreshToken sLw (some uLw.dek) "acct1" = .ok "tokA" :=
  lock_unlock_fidelity s0 r0 "hunter2" none sLw uLw "acct1" "tokA" row1
    (lockDatabase_eq s0 r0 "hunter2" none)
    (tryUnwrapDek_lockOutput s0 r0 "hunter2" none r0.dek)
    (by decide) rfl (by decide)

/-- C4: wrong password never succeeds — after locking with password `P`,
unwrapping the DEK with any password other than `P` fails with the
authentication error and returns no DEK; `tryUnwrapDek` takes no lock
and returns no state, so the vault remains locked and unchanged. -/
theorem wrong_password_never_succeeds (s : DBState) (r : Rnd) (P : String)
    (hint : Option String) (sL : DBState)
    (hlock : lockDatabase s r P hint = .ok sL)
    (Pw : String) (hne : Pw ≠ P) :
    tryUnwrapDek sL Pw = .error .authFailure := by
  rw [lockDatabase_eq] at hlock
  have hL := (Except.ok.inj hlock).symm
  subst hL
  exact tryUnwrapDek_wrongPass _ P Pw r.salt r.dekIv r.dek DEFAULT_KDF
    rfl rfl rfl rfl rfl hne

/-- Witness for C4 on the sample store. -/
theorem wrong_password_never_succeeds_witness :
    tryUnwrapDek sLw "wrong" = .error .authFailure :=
  wrong_password_never_succeeds s0 r0 "hunter2" none sLw
    (lockDatabase_eq s0 r0 "hunter2" none) "wrong" (by decide)

/-- C5: rotation preserves secrets and changes the password — after locking
with `P1` and rotating to `P2`, unwrapping with `P2` yields the same DEK that
`P1` yielded before rotation while the credential rows are unchanged (so every
stored ciphertext decrypts to exactly what it decrypted to before), and
unwrapping with `P1` after rotation fails with the authentication error. -/
theorem rotation_preserves_secrets_changes_password
    (s : DBState) (ra rb : Rnd) (P1 P2 : String) (h1 h2 : Option String)
    (sA sB : DBState)
    (hlock : lockDatabase s ra P1 h1 = .ok sA)
    (hrot : rotatePassword sA rb P1 P2 h2 = .ok sB)
    (hne : P1 ≠ P2) :
    (∀ u1 u2, tryUnwrapDek sA P1 = .ok u1 → tryUnwrapDek sB P2 = .ok u2 →
      u2.dek = u1.dek ∧
      ∀ aid, readRefreshToken sB (some u2.dek) aid =
        readRefreshToken sA (some u1.dek) aid) ∧
    tryUnwrapDek sB P1 = .error .authFailure := by
  rw [lockDatabase_eq] at hlock
  have hA := (Except.ok.inj hlock).symm
  subst hA
  obtain ⟨hLocked, dek0, hdec, hB⟩ := rotate_ok_inv hrot
  have hdek0 : dek0 = ra.dek := by
    have h' := hdec
    simp only [lockTx2, lockTx1, Option.getD_some] at h'
    rw [encrypt_iv, decrypt_encrypt] at h'
    exact (Option.some.inj h').symm
  subst hdek0
  subst hB
  constructor
  · intro u1 u2 hu1 hu2
    rw [tryUnwrapDek_lockOutput] at hu1
    have e1 := Except.ok.inj hu1
    have h2w : tryUnwrapDek
        { lockTx2 (lockTx1 s ra P1 h1) ra.dek ra with
          meta := { (lockTx2 (lockTx1 s ra P1 h1) ra.dek ra).meta with
            kdf_salt := some rb.salt
            kdf_params_json := some DEFAULT_KDF
            dek_ct := some (encryptAesGcm (deriveKek P2 rb.salt DEFAULT_KDF)
              rb.dekIv ra.dek none).ct
            dek_iv := some (encryptAesGcm (deriveKek P2 rb.salt DEFAULT_KDF)
              rb.dekIv ra.dek none).iv
            dek_tag := some (encryptAesGcm (deriveKek P2 rb.salt DEFAULT_KDF)
              rb.dekIv ra.dek none).tag
            password_hint := jsOrStr (jsOrStr h2
              (lockTx2 (lockTx1 s ra P1 h1) ra.dek ra).meta.password_hint) none } } P2 =
        .ok { dek := ra.dek, params := DEFAULT_KDF, salt := rb.salt } := by
      apply tryUnwrapDek_honest _ _ rb.salt rb.dekIv ra.dek DEFAULT_KDF <;> rfl
    rw [h2w] at hu2
    have e2 := Except.ok.inj hu2
    constructor
    · rw [← e2, ← e1]
    · intro aid
      rw [← e2, ← e1]
      exact readRefreshToken_congr rfl _ aid
  · exact tryUnwrapDek_wrongPass _ P2 P1 rb.salt rb.dekIv ra.dek DEFAULT_KDF
      rfl rfl rfl rfl rfl hne

/-- Witness for C5 on the sample store (lock with `"hunter2"`, rotate to
`"p2"`). -/
theorem rotation_preserves_secrets_changes_password_witness :
    rotatePassword sLw r1 "hunter2" "p2" none = .ok sRot ∧
    tryUnwrapDek sLw "hunter2" = .ok uLw ∧
    tryUnwrapDek sRot "p2" = .ok uRot ∧
    uRot.dek = uLw.dek ∧
    readRefreshToken sRot (some uRot.dek) "acct1" =
      readRefreshToken sLw (some uLw.dek) "acct1" ∧
    tryUnwrapDek sRot "hunter2" = .error .authFailure := by
  have hrot : rotatePassword sLw r1 "hunter2" "p2" none = .ok sRot := by decide
  have hu1 : tryUnwrapDek sLw "hunter2" = .ok uLw := by decide
  have hu2 : tryUnwrapDek sRot "p2" = .ok uRot := by decide
  have main := rotation_preserves_secrets_changes_password s0 r0 r1 "hunter2" "p2"
    none none sLw sRot (lockDatabase_eq s0 r0 "hunter2" none) hrot (by decide)
  exact ⟨hrot, hu1, hu2, (main.1 uLw uRot hu1 hu2).1,
    (main.1 uLw uRot hu1 hu2).2 "acct1", main.2⟩

/-- C6: rotation modifies only the singleton metadata row — the credential
rows of the store are byte-for-byte unchanged by a successful rotation
(rotation is O(1) in the number of stored secrets), and the new metadata
wraps the very same DEK that the old password unwrapped. -/
theorem rotation_metadata_only (s : DBState) (r : Rnd) (oldP newP : String)
    (hint : Option String) (sR : DBState)
    (hrot : rotatePassword s r oldP newP hint = .ok sR) :
    sR.creds = s.creds ∧
    ∀ u, tryUnwrapDek s oldP = .ok u →
      tryUnwrapDek sR newP = .ok { dek := u.dek, params := DEFAULT_KDF, salt := r.salt } := by
  obtain ⟨hLocked, dek0, hdec, hB⟩ := rotate_ok_inv hrot
  subst hB
  refine ⟨rfl, ?_⟩
  intro u hu
  unfold tryUnwrapDek at hu
  dsimp only at hu
  cases hsalt : s.meta.kdf_salt with
  | none =>
    rw [hsalt] at hu
    simp at hu
  | some salt0 =>
    cases hct : s.meta.dek_ct with
    | none =>
      rw [hsalt, hct] at hu
      simp at hu
    | some ct0 =>
      rw [hsalt, hct] at hu
      simp only [Option.getD_some] at hu
      simp only [hsalt, hct, Option.getD_some] at hdec
      rw [hdec] at hu
      simp only at hu
      have hu' := Except.ok.inj hu
      have hdek : u.dek = dek0 := by rw [← hu']
      rw [hdek]
      apply tryUnwrapDek_honest _ _ r.salt r.dekIv dek0 DEFAULT_KDF <;> rfl

/-- Witness for C6 on the sample store. -/
theorem rotation_metadata_only_witness :
    sRot.creds = sLw.creds ∧
    tryUnwrapDek sRot "p2" = .ok { dek := uLw.dek, params := DEFAULT_KDF, salt := r1.salt } := by
  have main := rotation_metadata_only sLw r1 "hunter2" "p2" none sRot (by decide)
  exact ⟨main.1, main.2 uLw (by decide)⟩

/-- C9: cross-record substitution is detected — in a locked store, placing
account A's stored ciphertext/nonce/tag triple into account B's credential row
makes the read of B's secret with the correct DEK fail with the authentication
error, because the associated data is bound to B's account id while the
ciphertext was authenticated under A's. -/
theorem cross_record_substitution_detected
    (s : DBState) (r : Rnd) (P : String) (hint : Option String) (sL : DBState)
    (u : UnwrappedDek) (idA idB tA tB : String) (cA cB rowA : CredRow)
    (hlock : lockDatabase s r P hint = .ok sL)
    (hunw : tryUnwrapDek sL P = .ok u)
    (hfA : s.creds.find? (fun c => c.account_id == idA) = some cA)
    (hfB : s.creds.find? (fun c => c.account_id == idB) = some cB)
    (htA : cA.refresh_token = some tA) (hneA : tA ≠ "")
    (htB : cB.refresh_token = some tB) (hneB : tB ≠ "")
    (hAB : idA ≠ idB)
    (hrA : sL.creds.find? (fun c => c.account_id == idA) = some rowA) :
    readRefreshToken
      (substTriple sL idB rowA.refresh_token_ct rowA.refresh_token_iv rowA.refresh_token_tag)
      (some u.dek) idB = .error .authFailure := by
  rw [lockDatabase_eq] at hlock
  have hL := (Except.ok.inj hlock).symm
  subst hL
  rw [tryUnwrapDek_lockOutput] at hunw
  have hud : u.dek = r.dek := by rw [← Except.ok.inj hunw]
  have hAeq : cA.account_id = idA := by
    have hb := List.find?_some hfA
    simp only at hb
    exact eq_of_beq hb
  have hBeq : cB.account_id = idB := by
    have hb := List.find?_some hfB
    simp only at hb
    exact eq_of_beq hb
  have htrA : truthyS cA.refresh_token = true := by
    rw [htA]
    simp [truthyS, hneA]
  have htrB : truthyS cB.refresh_token = true := by
    rw [htB]
    simp [truthyS, hneB]
  have hrowA : rowA =
      { cA with
        refresh_token := none
        refresh_token_ct := some (encryptAesGcm r.dek (r.rowIv idA) (encodeStr tA)
          (some (aadFor idA))).ct
        refresh_token_iv := some (encryptAesGcm r.dek (r.rowIv idA) (encodeStr tA)
          (some (aadFor idA))).iv
        refresh_token_tag := some (encryptAesGcm r.dek (r.rowIv idA) (encodeStr tA)
          (some (aadFor idA))).tag
        access_token := none
        access_expires_at := none } := by
    have hfound : (lockTx2 (lockTx1 s r P hint) r.dek r).creds.find?
        (fun c => c.account_id == idA) = some (encryptRow r.dek r cA) := by
      show (s.creds.map (encryptRow r.dek r)).find? (fun c => c.account_id == idA) = _
      rw [find?_map_encryptRow, hfA]
      rfl
    rw [hfound] at hrA
    have := Option.some.inj hrA
    rw [← this]
    unfold encryptRow
    rw [if_pos htrA, hAeq, htA]
    simp
  have hrowB : encryptRow r.dek r cB =
      { cB with
        refresh_token := none
        refresh_token_ct := some (encryptAesGcm r.dek (r.rowIv idB) (encodeStr tB)
          (some (aadFor idB))).ct
        refresh_token_iv := some (encryptAesGcm r.dek (r.rowIv idB) (encodeStr tB)
          (some (aadFor idB))).iv
        refresh_token_tag := some (encryptAesGcm r.dek (r.rowIv idB) (encodeStr tB)
          (some (aadFor idB))).tag
        access_token := none
        access_expires_at := none } := by
    unfold encryptRow
    rw [if_pos htrB, hBeq, htB]
    simp
  have hfoundB : (substTriple (lockTx2 (lockTx1 s r P hint) r.dek r) idB
      rowA.refresh_token_ct rowA.refresh_token_iv rowA.refresh_token_tag).creds.find?
      (fun c => c.account_id == idB) = some
        { encryptRow r.dek r cB with
          refresh_token_ct := rowA.refresh_token_ct
          refresh_token_iv := rowA.refresh_token_iv
          refresh_token_tag := rowA.refresh_token_tag } := by
    show ((lockTx2 (lockTx1 s r P hint) r.dek r).creds.map _).find? _ = _
    rw [find?_map_subst]
    show ((s.creds.map (encryptRow r.dek r)).find? (fun c => c.account_id == idB)).map _ = _
    rw [find?_map_encryptRow, hfB]
    have hcond : ((encryptRow r.dek r cB).account_id == idB) = true := by
      rw [encryptRow_account_id, hBeq]
      exact beq_self_eq_true idB
    simp [hcond]
    intro hcontra
    exact absurd (eq_of_beq hcond) hcontra
  unfold readRefreshToken
  rw [hfoundB, hrowA, hrowB, hud]
  have hdecFail : decryptAesGcm r.dek (r.rowIv idA)
      (encryptAesGcm r.dek (r.rowIv idA) (encodeStr tA) (some (aadFor idA))).tag
      (encryptAesGcm r.dek (r.rowIv idA) (encodeStr tA) (some (aadFor idA))).ct
      (some (aadFor idB)) = none := by
    apply decrypt_of_ne
    rw [encrypt_tag]
    intro heq
    obtain ⟨-, -, haad, -⟩ := macTag_inj heq
    exact hAB (aadFor_inj (Option.some.inj haad))
  simp [truthyS, encrypt_iv, hdecFail]

/-- Witness for C9 on the sample store: `row1`'s stored triple moved into
`row2`'s slot. -/
theorem cross_record_substitution_detected_witness :
    readRefreshToken
      (substTriple sLw "acct2" rAw.refresh_token_ct rAw.refresh_token_iv rAw.refresh_token_tag)
      (some uLw.dek) "acct2" = .error .authFailure :=
  cross_record_substitution_detected s0 r0 "hunter2" none sLw uLw
    "acct1" "acct2" "tokA" "tokB" row1 row2 rAw
    (lockDatabase_eq s0 r0 "hunter2" none)
    (tryUnwrapDek_lockOutput s0 r0 "hunter2" none r0.dek)
    (by decide) (by decide) rfl (by decide) rfl (by decide) (by decide) (by decide)

/-- C10 (counterexample): rotating with an explicitly supplied empty-string
hint does not store the empty string — the source's `hint ||
row.password_hint || null` treats `''` as absent and keeps the previous hint
`"abc"`. -/
theorem rotate_empty_hint_counterexample :
    (rotatePassword sLocked r1 "p1" "p2" (some "")).toOption.map
      (fun s => s.meta.password_hint) = some (some "abc") ∧
    (some "abc" : Option String) ≠ some "" := by
  constructor
  · decide
  · decide

/-- C10 (amended): rotating with the hint argument omitted preserves the
previous (nonempty) hint, and rotating with a nonempty hint stores that hint;
an empty-string hint behaves like an omitted one (it falls back to the
previous hint) because of JS truthiness in `hint || row.password_hint ||
null`. -/
theorem rotate_hint_semantics (s : DBState) (r : Rnd) (oldP newP : String)
    (hint : Option String) (sR : DBState)
    (hrot : rotatePassword s r oldP newP hint = .ok sR) :
    ((hint = none ∨ hint = some "") → ∀ h0, s.meta.password_hint = some h0 → h0 ≠ "" →
       sR.meta.password_hint = some h0) ∧
    (∀ h1, hint = some h1 → h1 ≠ "" → sR.meta.password_hint = some h1) := by
  obtain ⟨-, dek0, -, hB⟩ := rotate_ok_inv hrot
  subst hB
  constructor
  · rintro (rfl | rfl) h0 hh0 hne
    · simp [jsOrStr, truthyS, hh0, hne]
    · simp [jsOrStr, truthyS, hh0, hne]
  · rintro h1 rfl hne
    simp [jsOrStr, truthyS, hne]

/-- Witness for C10's amended theorem: rotating with the nonempty hint
`"zz"` stores it. -/
theorem rotate_hint_semantics_witness :
    ∃ sR, rotatePassword sLocked r1 "p1" "p2" (some "zz") = .ok sR ∧
      sR.meta.password_hint = some "zz" := by
  obtain ⟨sR, hrot⟩ : ∃ x, rotatePassword sLocked r1 "p1" "p2" (some "zz") = .ok x :=
    ⟨_, rfl⟩
  exact ⟨sR, hrot,
    (rotate_hint_semantics sLocked r1 "p1" "p2" (some "zz") sR hrot).2 "zz" rfl (by decide)⟩

end GmailMcp
